import Mathlib

/-!
Shallow embedding of the `crest` fluent HTTP assertion library (Go).

The embedding models the two source files: the request-building client
(`client.go`) and the response wrapper with its assertion catalog.
Go pointer state that is genuinely shared between objects (the sticky-error
cell targeted by the `errGetter`/`errSetter` closures created in
`NewCustomClient`, and the `http.Client` whose cookie jar `UseCookies`
mutates) is modelled by an explicit heap; everything else is plain record
data.  Errors are modelled as their message strings; `errors.Wrap(err, m)`
produces `m ++ ": " ++ err`.  Byte slices are modelled as strings.
External collaborators (the HTTP transport, the JSON codec) are passed in
as function parameters, matching the spec's declaration that they are
out-of-scope collaborators.  Go runtime panics (nil-pointer dereference)
are modelled by an explicit `Outcome.panicked` constructor.
-/

namespace Crest

/-- Errors are modelled by their message strings. -/
abbrev Err := String

/-- Go `%q` formatting of a string, modelled as plain double-quoting
(escaping of special characters inside the string is not modelled; no
claim depends on it). -/
def goQuote (s : String) : String := "\"" ++ s ++ "\""

/-- Go `strings.Contains`: `sub` occurs somewhere inside `s`
(the empty string is contained in every string). -/
def strContains (s sub : String) : Bool :=
  s.data.tails.any (fun t => sub.data.isPrefixOf t)

/-- Go `strings.TrimPrefix(p, "/")`: removes one leading slash if present. -/
def trimPrefixSlash (p : String) : String :=
  match p.data with
  | [] => p
  | c :: rest => if c = '/' then String.mk rest else p

/-- Go `http.Header` modelled as an association list from key to the ordered
list of values.  The MIME key canonicalization that `http.Header.Add`
performs in the standard library is not modelled (no claim depends on it);
`Add` appends the value to the key's list, creating the entry if absent. -/
abbrev Headers := List (String × List String)

/-- `http.Header.Add`: append `v` to the list stored under `k`. -/
def headerAdd (hs : Headers) (k v : String) : Headers :=
  match hs with
  | [] => [(k, [v])]
  | (k0, vs) :: rest =>
      if k0 = k then (k0, vs ++ [v]) :: rest else (k0, vs) :: headerAdd rest k v

/-- Go map indexing `hdr[k]` on a possibly-nil header map: a nil map and a
missing key both yield the empty (zero-value) slice; the lookup is an
exact, case-sensitive string match. -/
def headerLookup (hdr : Option Headers) (k : String) : List String :=
  match hdr with
  | none => []
  | some hs =>
      match hs.find? (fun p => p.1 = k) with
      | none => []
      | some p => p.2

/-- The header-copy loop inside `Clone`: a fresh map filled by calling
`Add` for every value of every entry of the source map. -/
def headersCopy (hs : Headers) : Headers :=
  hs.foldl (fun acc kv => kv.2.foldl (fun a v => headerAdd a kv.1 v) acc) []

/-- Go `url.Values` for `PostForm`. -/
abbrev FormValues := List (String × List String)

/-- Go `url.Values.Encode`, modelled without percent-escaping and in the
map's stored order (the real function sorts keys and escapes); no claim
depends on the encoded string's exact shape. -/
def formEncode (vs : FormValues) : String :=
  String.intercalate "&"
    (vs.foldr (fun kv acc => kv.2.map (fun v => kv.1 ++ "=" ++ v) ++ acc) [])

/-- The explicit heap: `errCells` holds every client's `err` field (the
target of the `errGetter`/`errSetter` closures), `jars` holds, for every
`http.Client`, whether a cookie jar is currently attached. -/
structure Heap where
  errCells : List (Option Err)
  jars : List Bool
  deriving DecidableEq

/-- Read an error cell (the body of the `errGetter` closure). -/
def cellGet (h : Heap) (i : Nat) : Option Err :=
  h.errCells.getD i none

/-- Write an error cell (the body of the `errSetter` closure). -/
def cellSet (h : Heap) (i : Nat) (e : Err) : Heap :=
  { h with errCells := h.errCells.set i (some e) }

/-- The error-setter a `responseWrapper` was constructed with: either the
client's plain `errSetter`, or the closure built in `client.do` that first
wraps the message with the request's method and URL. -/
inductive SetterKind where
  | plain
  | wrapped (method url : String)
  deriving DecidableEq

/-- Apply the setter's wrapping to a message before it reaches the cell. -/
def applySetter : SetterKind → Err → Err
  | .plain, e => e
  | .wrapped m u, e => "doing a " ++ m ++ " request to URL " ++ goQuote u ++ ": " ++ e

/-- The `client` struct.  `errCellId` is the cell the captured
`errGetter`/`errSetter` closures target (always the cell allocated by the
`NewCustomClient` call that created this struct value, even after `Clone`
copies the struct); `httpClientId` is the shared `http.Client`.  The
`useCookies` field exists in the source struct but is never assigned. -/
structure client where
  baseURL : String
  httpClientId : Nat
  errCellId : Nat
  useBasicAuth : Bool
  basicAuthUser : String
  basicAuthPass : String
  useCookies : Bool
  headers : Headers
  timeout : Int
  deriving DecidableEq

/-- The `errGetter` closure: read this client's captured error cell. -/
def errGetter (h : Heap) (c : client) : Option Err :=
  cellGet h c.errCellId

/-- `NewCustomClient`: allocate the client with a fresh error cell targeted
by its closures, pointing at the given `http.Client`. -/
def NewCustomClient (h : Heap) (url0 : String) (httpClientId : Nat) : Heap × client :=
  ({ h with errCells := h.errCells ++ [none] },
   { baseURL := url0
     httpClientId := httpClientId
     errCellId := h.errCells.length
     useBasicAuth := false
     basicAuthUser := ""
     basicAuthPass := ""
     useCookies := false
     headers := []
     timeout := 0 })

/-- `NewClient`: allocate a fresh `http.Client` (no jar) and delegate. -/
def NewClient (h : Heap) (url0 : String) : Heap × client :=
  NewCustomClient { h with jars := h.jars ++ [false] } url0 h.jars.length

/-- `Error()`: pure read of the sticky error through `errGetter`. -/
def ErrorOf (h : Heap) (c : client) : Option Err :=
  errGetter h c

/-- `NoBasicAuth`: clear the basic-auth configuration (no-op under a
sticky error); returns the same builder. -/
def NoBasicAuth (h : Heap) (c : client) : Heap × client :=
  if (errGetter h c).isSome then (h, c)
  else (h, { c with useBasicAuth := false, basicAuthUser := "", basicAuthPass := "" })

/-- `UseBasicAuth`: set the basic-auth configuration (no-op under a
sticky error); returns the same builder. -/
def UseBasicAuth (h : Heap) (c : client) (user pass : String) : Heap × client :=
  if (errGetter h c).isSome then (h, c)
  else (h, { c with useBasicAuth := true, basicAuthUser := user, basicAuthPass := pass })

/-- `UseCookies`: attach or detach the shared `http.Client`'s cookie jar
(no-op under a sticky error).  `cookiejar.New(nil)` never fails in the Go
standard library, so jar creation is modelled as always succeeding. -/
def UseCookies (h : Heap) (c : client) (use : Bool) : Heap × client :=
  if (errGetter h c).isSome then (h, c)
  else if !use then ({ h with jars := h.jars.set c.httpClientId false }, c)
  else ({ h with jars := h.jars.set c.httpClientId true }, c)

/-- `WithHeader`: add one header value (no-op under a sticky error). -/
def WithHeader (h : Heap) (c : client) (key value : String) : Heap × client :=
  if (errGetter h c).isSome then (h, c)
  else (h, { c with headers := headerAdd c.headers key value })

/-- `WithTimeout`: set the timeout (no-op under a sticky error). -/
def WithTimeout (h : Heap) (c : client) (timeout : Int) : Heap × client :=
  if (errGetter h c).isSome then (h, c)
  else (h, { c with timeout := timeout })

/-- `Clone`: under a sticky error, returns the same builder; otherwise
copies the struct (`cloned := *c` — including the `errGetter`/`errSetter`
closures, which still target the original's error cell, and the
`http.Client` pointer) and rebuilds the header map entry by entry. -/
def Clone (h : Heap) (c : client) : Heap × client :=
  if (errGetter h c).isSome then (h, c)
  else (h, { c with headers := headersCopy c.headers })

/-- `buildPath`: `c.baseURL + "/" + strings.TrimPrefix(path, "/")`. -/
def buildPath (baseURL path : String) : String :=
  baseURL ++ "/" ++ trimPrefixSlash path

/-- An outbound `http.Request` as the client populates it. -/
structure Request where
  method : String
  url : String
  header : Headers
  basicAuth : Option (String × String)
  hasTimeout : Bool
  body : Option String
  deriving DecidableEq

/-- URL acceptance by `http.NewRequest` (which fails exactly when
`url.Parse` fails).  `url.Parse` is an external collaborator; only the
rejection mode exercised here is modelled: a URL beginning with `:` has an
empty scheme and is rejected with "missing protocol scheme".  Every other
URL is modelled as accepted. -/
def validRequestURL (s : String) : Bool :=
  match s.data with
  | ':' :: _ => false
  | _ => true

/-- The `url.Parse` error message for the modelled rejection mode. -/
def urlParseErrMsg (u : String) : String :=
  "parse " ++ goQuote u ++ ": missing protocol scheme"

/-- `populateReq`: apply basic auth, copy the accumulated headers into the
request, and bind a timeout context when a positive timeout is set. -/
def populateReq (c : client) (req : Request) : Request :=
  let req := if c.useBasicAuth then
      { req with basicAuth := some (c.basicAuthUser, c.basicAuthPass) }
    else req
  let req := { req with
      header := c.headers.foldl
        (fun acc kv => kv.2.foldl (fun a v => headerAdd a kv.1 v) acc) req.header }
  if c.timeout > 0 then { req with hasTimeout := true } else req

/-- `buildReq`: build the request for the joined path; on URL-parse failure
set the sticky error (wrapping with "creating request") and return nil. -/
def buildReq (h : Heap) (c : client) (method path : String) (body : Option String) :
    Heap × Option Request :=
  let u := buildPath c.baseURL path
  if validRequestURL u then
    (h, some (populateReq c
      { method := method, url := u, header := [], basicAuth := none,
        hasTimeout := false, body := body }))
  else
    (cellSet h c.errCellId ("creating request: " ++ urlParseErrMsg u), none)

/-- Result of running Go code that may hit a runtime panic. -/
inductive Outcome (α : Type) where
  | ok (val : α)
  | panicked (msg : String)
  deriving DecidableEq

/-- The Go nil-pointer dereference panic message. -/
def nilDerefMsg : String :=
  "runtime error: invalid memory address or nil pointer dereference"

/-- What happened to the response body stream during wrapper construction:
how many `ReadAll` calls it received, whether it was read to exhaustion,
and whether `Close` was ever called on it. -/
structure StreamEffect where
  reads : Nat
  drained : Bool
  closed : Bool
  deriving DecidableEq

/-- A completed `http.Response` as the wrapper sees it: status code, a
possibly-nil header map, and a body stream modelled by its full content
together with whether reading it fails. -/
structure Response where
  statusCode : Int
  header : Option Headers
  bodyContent : String
  bodyReadErr : Option Err
  deriving DecidableEq

/-- The `responseWrapper` struct: the wrapped (possibly absent) response,
the materialized body, and the shared error channel it was constructed
with (the cell its `error` closure reads, and the kind of setter). -/
structure responseWrapper where
  resp : Option Response
  body : String
  errCellId : Nat
  setterKind : SetterKind
  deriving DecidableEq

/-- The wrapper's `error` closure: read the shared cell. -/
def wErr (h : Heap) (r : responseWrapper) : Option Err :=
  cellGet h r.errCellId

/-- The wrapper's `setError` closure: wrap per the setter kind, then write
the shared cell. -/
def wSetErr (h : Heap) (r : responseWrapper) (e : Err) : Heap :=
  cellSet h r.errCellId (applySetter r.setterKind e)

/-- `newResponseWrapper`: build the wrapper, then — unless the shared error
channel already reports an error — read the whole body with `ReadAll`,
reporting a read failure through the setter wrapped with
"reading response body".  The source never calls `Close` on the stream, so
`closed` is `false` on every path.  Reading dereferences `r.resp`, so a
nil response with no pending error would panic. -/
def newResponseWrapper (h : Heap) (resp : Option Response) (cellId : Nat)
    (kind : SetterKind) : Outcome (Heap × responseWrapper × StreamEffect) :=
  let r0 : responseWrapper :=
    { resp := resp, body := "", errCellId := cellId, setterKind := kind }
  if (cellGet h cellId).isSome then
    .ok (h, r0, { reads := 0, drained := false, closed := false })
  else
    match resp with
    | none => .panicked nilDerefMsg
    | some rsp =>
        match rsp.bodyReadErr with
        | some e =>
            .ok (cellSet h cellId (applySetter kind ("reading response body: " ++ e)),
                 r0, { reads := 1, drained := false, closed := false })
        | none =>
            .ok (h, { r0 with body := rsp.bodyContent },
                 { reads := 1, drained := true, closed := false })

/-- The `ResponseWrapper` interface: either the real wrapper or the no-op
wrapper. -/
inductive ResponseWrapper where
  | nop
  | wrapper (r : responseWrapper)
  deriving DecidableEq

/-- The HTTP transport collaborator (`http.Client.Do`): a response or a
transport error. -/
abbrev Transport := Request → Except Err Response

/-- Drop the stream effect and inject into the interface type. -/
def wrapOutcome (o : Outcome (Heap × responseWrapper × StreamEffect)) :
    Outcome (Heap × ResponseWrapper) :=
  match o with
  | .ok (h, r, _) => .ok (h, .wrapper r)
  | .panicked m => .panicked m

/-- `client.do`: under a pending error return a wrapper around a nil
response with the plain setter; otherwise perform the one transport call,
record a transport failure (wrapped with "doing request") in the cell, and
wrap the outcome with the method-and-URL-wrapping setter. -/
def clientDo (τ : Transport) (h : Heap) (c : client) (req? : Option Request) :
    Outcome (Heap × ResponseWrapper) :=
  if (errGetter h c).isSome then
    wrapOutcome (newResponseWrapper h none c.errCellId .plain)
  else
    match req? with
    | none => .panicked nilDerefMsg
    | some req =>
        match τ req with
        | .error e =>
            wrapOutcome (newResponseWrapper
              (cellSet h c.errCellId ("doing request: " ++ e))
              none c.errCellId (.wrapped req.method req.url))
        | .ok resp =>
            wrapOutcome (newResponseWrapper h (some resp) c.errCellId
              (.wrapped req.method req.url))

/-- `doReq`: under a pending error return the no-op wrapper without any
I/O; otherwise build the request and perform it. -/
def doReq (τ : Transport) (h : Heap) (c : client) (method path : String)
    (body : Option String) : Outcome (Heap × ResponseWrapper) :=
  if (errGetter h c).isSome then .ok (h, .nop)
  else
    let p := buildReq h c method path body
    clientDo τ p.1 c p.2

/-- `doReqJSON`: the object body is represented by the outcome of
`json.Marshal` on it (the codec is an external collaborator); a marshal
failure sets the sticky error and yields the no-op wrapper. -/
def doReqJSON (τ : Transport) (h : Heap) (c : client) (method path : String)
    (marshalled : Except Err String) : Outcome (Heap × ResponseWrapper) :=
  if (errGetter h c).isSome then .ok (h, .nop)
  else
    match marshalled with
    | .error e => .ok (cellSet h c.errCellId ("marshalling JSON body: " ++ e), .nop)
    | .ok bs => doReq τ h c method path (some bs)

/-- `doReqString`. -/
def doReqString (τ : Transport) (h : Heap) (c : client) (method path body : String) :
    Outcome (Heap × ResponseWrapper) :=
  if (errGetter h c).isSome then .ok (h, .nop)
  else doReq τ h c method path (some body)

/-- `doReqBytes` (byte slices modelled as strings). -/
def doReqBytes (τ : Transport) (h : Heap) (c : client) (method path body : String) :
    Outcome (Heap × ResponseWrapper) :=
  if (errGetter h c).isSome then .ok (h, .nop)
  else doReq τ h c method path (some body)

/-- `doReqNoBody`. -/
def doReqNoBody (τ : Transport) (h : Heap) (c : client) (method path : String) :
    Outcome (Heap × ResponseWrapper) :=
  if (errGetter h c).isSome then .ok (h, .nop)
  else doReq τ h c method path none

/-- `doReqForm`: encodes the form, builds the request, then adds the
Content-Type header to `req.Header` BEFORE `do` runs — when `buildReq`
failed and returned nil this dereferences a nil request and panics. -/
def doReqForm (τ : Transport) (h : Heap) (c : client) (method path : String)
    (body : FormValues) : Outcome (Heap × ResponseWrapper) :=
  if (errGetter h c).isSome then .ok (h, .nop)
  else
    let p := buildReq h c method path (some (formEncode body))
    match p.2 with
    | none => .panicked nilDerefMsg
    | some req =>
        clientDo τ p.1 c (some { req with
          header := headerAdd req.header "Content-Type" "application/x-www-form-urlencoded" })

/-- `Delete`. -/
def Delete (τ : Transport) (h : Heap) (c : client) (path : String) :
    Outcome (Heap × ResponseWrapper) := doReqNoBody τ h c "DELETE" path

/-- `Get`. -/
def Get (τ : Transport) (h : Heap) (c : client) (path : String) :
    Outcome (Heap × ResponseWrapper) := doReqNoBody τ h c "GET" path

/-- `Patch`. -/
def Patch (τ : Transport) (h : Heap) (c : client) (path : String)
    (body : Except Err String) : Outcome (Heap × ResponseWrapper) :=
  doReqJSON τ h c "PATCH" path body

/-- `Post`. -/
def Post (τ : Transport) (h : Heap) (c : client) (path : String)
    (body : Except Err String) : Outcome (Heap × ResponseWrapper) :=
  doReqJSON τ h c "POST" path body

/-- `Put`. -/
def Put (τ : Transport) (h : Heap) (c : client) (path : String)
    (body : Except Err String) : Outcome (Heap × ResponseWrapper) :=
  doReqJSON τ h c "PUT" path body

/-- `PatchNoBody`. -/
def PatchNoBody (τ : Transport) (h : Heap) (c : client) (path : String) :
    Outcome (Heap × ResponseWrapper) := doReqNoBody τ h c "PATCH" path

/-- `PostNoBody`. -/
def PostNoBody (τ : Transport) (h : Heap) (c : client) (path : String) :
    Outcome (Heap × ResponseWrapper) := doReqNoBody τ h c "POST" path

/-- `PutNoBody`. -/
def PutNoBody (τ : Transport) (h : Heap) (c : client) (path : String) :
    Outcome (Heap × ResponseWrapper) := doReqNoBody τ h c "PUT" path

/-- `PatchString`. -/
def PatchString (τ : Transport) (h : Heap) (c : client) (path body : String) :
    Outcome (Heap × ResponseWrapper) := doReqString τ h c "PATCH" path body

/-- `PostString`. -/
def PostString (τ : Transport) (h : Heap) (c : client) (path body : String) :
    Outcome (Heap × ResponseWrapper) := doReqString τ h c "POST" path body

/-- `PutString`. -/
def PutString (τ : Transport) (h : Heap) (c : client) (path body : String) :
    Outcome (Heap × ResponseWrapper) := doReqString τ h c "PUT" path body

/-- `PatchBytes`. -/
def PatchBytes (τ : Transport) (h : Heap) (c : client) (path body : String) :
    Outcome (Heap × ResponseWrapper) := doReqBytes τ h c "PATCH" path body

/-- `PostBytes`. -/
def PostBytes (τ : Transport) (h : Heap) (c : client) (path body : String) :
    Outcome (Heap × ResponseWrapper) := doReqBytes τ h c "POST" path body

/-- `PutBytes`. -/
def PutBytes (τ : Transport) (h : Heap) (c : client) (path body : String) :
    Outcome (Heap × ResponseWrapper) := doReqBytes τ h c "PUT" path body

/-- `PostForm`. -/
def PostForm (τ : Transport) (h : Heap) (c : client) (path : String)
    (body : FormValues) : Outcome (Heap × ResponseWrapper) :=
  doReqForm τ h c "POST" path body

/-- `Body()`: pure accessor of the materialized body. -/
def Body (r : responseWrapper) : String := r.body

/-- `ExpectBodyContains`. -/
def ExpectBodyContains (h : Heap) (r : responseWrapper) (needle : String) :
    Outcome (Heap × responseWrapper) :=
  if (wErr h r).isSome then .ok (h, r)
  else if !(strContains r.body needle) then
    .ok (wSetErr h r ("expected body to contain " ++ goQuote needle ++ " but it did not"), r)
  else .ok (h, r)

/-- `ExpectBodyEquals`. -/
def ExpectBodyEquals (h : Heap) (r : responseWrapper) (value : String) :
    Outcome (Heap × responseWrapper) :=
  if (wErr h r).isSome then .ok (h, r)
  else if r.body ≠ value then
    .ok (wSetErr h r ("expected body to be " ++ goQuote value ++ " but it was not"), r)
  else .ok (h, r)

/-- `ExpectBodyNotContains`. -/
def ExpectBodyNotContains (h : Heap) (r : responseWrapper) (needle : String) :
    Outcome (Heap × responseWrapper) :=
  if (wErr h r).isSome then .ok (h, r)
  else if strContains r.body needle then
    .ok (wSetErr h r ("expected body to not contain " ++ goQuote needle ++ " but it does"), r)
  else .ok (h, r)

/-- `ExpectBodyNotEquals`. -/
def ExpectBodyNotEquals (h : Heap) (r : responseWrapper) (value : String) :
    Outcome (Heap × responseWrapper) :=
  if (wErr h r).isSome then .ok (h, r)
  else if r.body = value then
    .ok (wSetErr h r ("expected body not to be " ++ goQuote value ++ " but it was"), r)
  else .ok (h, r)

/-- `ExpectBodyPasses`. -/
def ExpectBodyPasses (h : Heap) (r : responseWrapper) (f : String → Bool) :
    Outcome (Heap × responseWrapper) :=
  if (wErr h r).isSome then .ok (h, r)
  else if !(f r.body) then
    .ok (wSetErr h r "expected function to pass, but it did not", r)
  else .ok (h, r)

/-- `ExpectHeaderContains`: dereferences `r.resp` (nil response would
panic); a nil header map is an immediate "no headers" failure; otherwise
some value under the exact key must contain the needle. -/
def ExpectHeaderContains (h : Heap) (r : responseWrapper) (key needle : String) :
    Outcome (Heap × responseWrapper) :=
  if (wErr h r).isSome then .ok (h, r)
  else
    match r.resp with
    | none => .panicked nilDerefMsg
    | some resp =>
        match resp.header with
        | none =>
            .ok (wSetErr h r ("expected a header " ++ goQuote key ++ " containing " ++
                  goQuote needle ++ ", but there are no headers"), r)
        | some hs =>
            if (headerLookup (some hs) key).any (fun v => strContains v needle) then
              .ok (h, r)
            else
              .ok (wSetErr h r ("expected a header " ++ goQuote key ++ " containing " ++
                    goQuote needle ++ ", but it did not"), r)

/-- `ExpectHeaderEquals`: like `ExpectHeaderContains` with equality (and
the same "containing" wording in its messages, as in the source). -/
def ExpectHeaderEquals (h : Heap) (r : responseWrapper) (key needle : String) :
    Outcome (Heap × responseWrapper) :=
  if (wErr h r).isSome then .ok (h, r)
  else
    match r.resp with
    | none => .panicked nilDerefMsg
    | some resp =>
        match resp.header with
        | none =>
            .ok (wSetErr h r ("expected a header " ++ goQuote key ++ " containing " ++
                  goQuote needle ++ ", but there are no headers"), r)
        | some hs =>
            if (headerLookup (some hs) key).any (fun v => v = needle) then
              .ok (h, r)
            else
              .ok (wSetErr h r ("expected a header " ++ goQuote key ++ " containing " ++
                    goQuote needle ++ ", but it did not"), r)

/-- `ExpectHeaderNotContains`: a nil header map returns success
immediately. -/
def ExpectHeaderNotContains (h : Heap) (r : responseWrapper) (key needle : String) :
    Outcome (Heap × responseWrapper) :=
  if (wErr h r).isSome then .ok (h, r)
  else
    match r.resp with
    | none => .panicked nilDerefMsg
    | some resp =>
        match resp.header with
        | none => .ok (h, r)
        | some hs =>
            if (headerLookup (some hs) key).any (fun v => strContains v needle) then
              .ok (wSetErr h r ("expected a header " ++ goQuote key ++ " to not contain " ++
                    goQuote needle ++ ", but it does"), r)
            else .ok (h, r)

/-- `ExpectHeaderNotEquals`: no nil-map check — indexing a nil Go map
yields the empty slice, so absence counts as success. -/
def ExpectHeaderNotEquals (h : Heap) (r : responseWrapper) (key needle : String) :
    Outcome (Heap × responseWrapper) :=
  if (wErr h r).isSome then .ok (h, r)
  else
    match r.resp with
    | none => .panicked nilDerefMsg
    | some resp =>
        if (headerLookup resp.header key).any (fun v => v = needle) then
          .ok (wSetErr h r ("expected a header " ++ goQuote key ++ " to not be " ++
                goQuote needle ++ ", but it is"), r)
        else .ok (h, r)

/-- `ExpectHeaderNotPresent`: no nil-map check — indexing a nil Go map
yields the empty slice, so absence counts as success. -/
def ExpectHeaderNotPresent (h : Heap) (r : responseWrapper) (key : String) :
    Outcome (Heap × responseWrapper) :=
  if (wErr h r).isSome then .ok (h, r)
  else
    match r.resp with
    | none => .panicked nilDerefMsg
    | some resp =>
        if (headerLookup resp.header key).length > 0 then
          .ok (wSetErr h r ("expected a header " ++ goQuote key ++
                " not to be present, but it was"), r)
        else .ok (h, r)

/-- `ExpectHeaderPresent`: a nil header map is an immediate "no headers"
failure; otherwise the exact key must map to a non-empty value list. -/
def ExpectHeaderPresent (h : Heap) (r : responseWrapper) (key : String) :
    Outcome (Heap × responseWrapper) :=
  if (wErr h r).isSome then .ok (h, r)
  else
    match r.resp with
    | none => .panicked nilDerefMsg
    | some resp =>
        match resp.header with
        | none =>
            .ok (wSetErr h r ("expected a header " ++ goQuote key ++
                  ", but there are no headers"), r)
        | some hs =>
            if (headerLookup (some hs) key).length = 0 then
              .ok (wSetErr h r ("expected a header " ++ goQuote key ++
                    " to be present, but it was not"), r)
            else .ok (h, r)

/-- `ExpectPasses`: the predicate receives the (possibly nil) response and
the materialized body. -/
def ExpectPasses (h : Heap) (r : responseWrapper)
    (f : Option Response → String → Bool) : Outcome (Heap × responseWrapper) :=
  if (wErr h r).isSome then .ok (h, r)
  else if !(f r.resp r.body) then
    .ok (wSetErr h r "expected function to pass, but it did not", r)
  else .ok (h, r)

/-- `ExpectStatus`: dereferences `r.resp`. -/
def ExpectStatus (h : Heap) (r : responseWrapper) (code : Int) :
    Outcome (Heap × responseWrapper) :=
  if (wErr h r).isSome then .ok (h, r)
  else
    match r.resp with
    | none => .panicked nilDerefMsg
    | some resp =>
        if resp.statusCode ≠ code then
          .ok (wSetErr h r ("expected status code " ++ toString code ++
                " but got " ++ toString resp.statusCode), r)
        else .ok (h, r)

/-- `ParseBody`: the JSON codec is an external collaborator, passed as the
`decode` function; under a pending error the decoder is never invoked and
the caller-supplied destination is returned untouched.  (On a decode
failure the destination is modelled as unchanged; `json.Unmarshal` may in
general partially populate it, but no claim depends on that path.) -/
def ParseBody {α : Type} (h : Heap) (r : responseWrapper) (dest : α)
    (decode : String → Except Err α) : Outcome (Heap × responseWrapper × α) :=
  if (wErr h r).isSome then .ok (h, r, dest)
  else
    match decode r.body with
    | .ok v => .ok (h, r, v)
    | .error e => .ok (wSetErr h r ("unmarshalling body: " ++ e), r, dest)

/-- The `nopResponseWrapper` struct (stateless). -/
inductive nopResponseWrapper where
  | mk
  deriving DecidableEq

/-- `nopResponseWrapper.Body`. -/
def nopResponseWrapper.Body (_ : nopResponseWrapper) : String := ""

/-- `nopResponseWrapper.ExpectBodyContains`. -/
def nopResponseWrapper.ExpectBodyContains (n : nopResponseWrapper) (_ : String) :
    nopResponseWrapper := n

/-- `nopResponseWrapper.ExpectBodyEquals`. -/
def nopResponseWrapper.ExpectBodyEquals (n : nopResponseWrapper) (_ : String) :
    nopResponseWrapper := n

/-- `nopResponseWrapper.ExpectBodyNotContains`. -/
def nopResponseWrapper.ExpectBodyNotContains (n : nopResponseWrapper) (_ : String) :
    nopResponseWrapper := n

/-- `nopResponseWrapper.ExpectBodyNotEquals`. -/
def nopResponseWrapper.ExpectBodyNotEquals (n : nopResponseWrapper) (_ : String) :
    nopResponseWrapper := n

/-- `nopResponseWrapper.ExpectBodyPasses`. -/
def nopResponseWrapper.ExpectBodyPasses (n : nopResponseWrapper)
    (_ : String → Bool) : nopResponseWrapper := n

/-- `nopResponseWrapper.ExpectHeaderContains`. -/
def nopResponseWrapper.ExpectHeaderContains (n : nopResponseWrapper)
    (_ _ : String) : nopResponseWrapper := n

/-- `nopResponseWrapper.ExpectHeaderEquals`. -/
def nopResponseWrapper.ExpectHeaderEquals (n : nopResponseWrapper)
    (_ _ : String) : nopResponseWrapper := n

/-- `nopResponseWrapper.ExpectHeaderNotContains`. -/
def nopResponseWrapper.ExpectHeaderNotContains (n : nopResponseWrapper)
    (_ _ : String) : nopResponseWrapper := n

/-- `nopResponseWrapper.ExpectHeaderNotEquals`. -/
def nopResponseWrapper.ExpectHeaderNotEquals (n : nopResponseWrapper)
    (_ _ : String) : nopResponseWrapper := n

/-- `nopResponseWrapper.ExpectHeaderNotPresent`. -/
def nopResponseWrapper.ExpectHeaderNotPresent (n : nopResponseWrapper)
    (_ : String) : nopResponseWrapper := n

/-- `nopResponseWrapper.ExpectHeaderPresent`. -/
def nopResponseWrapper.ExpectHeaderPresent (n : nopResponseWrapper)
    (_ : String) : nopResponseWrapper := n

/-- `nopResponseWrapper.ExpectPasses`. -/
def nopResponseWrapper.ExpectPasses (n : nopResponseWrapper)
    (_ : Option Response → String → Bool) : nopResponseWrapper := n

/-- `nopResponseWrapper.ExpectStatus`. -/
def nopResponseWrapper.ExpectStatus (n : nopResponseWrapper) (_ : Int) :
    nopResponseWrapper := n

/-- `nopResponseWrapper.ParseBody`. -/
def nopResponseWrapper.ParseBody {α : Type} (n : nopResponseWrapper) (_ : α) :
    nopResponseWrapper := n

end Crest

namespace Crest

/-- A transport that is never reached (used to instantiate the transport
parameter in runs that fail before any network call). -/
def τNone : Transport := fun _ => .error "unused transport"

/-- A heap with one clean error cell. -/
def heapNoErr : Heap := { errCells := [none], jars := [] }

/-- A heap whose single error cell already holds an error. -/
def heapBoom : Heap := { errCells := [some "boom"], jars := [] }

/-- A builder whose captured error cell (cell 0 of `heapBoom`) is errored. -/
def clientBoom : client :=
  { baseURL := "http://x", httpClientId := 0, errCellId := 0, useBasicAuth := false,
    basicAuthUser := "", basicAuthPass := "", useCookies := false, headers := [],
    timeout := 0 }

/-- A fresh client on the unparsable base URL ":" (its joined request URLs
have an empty scheme, so `http.NewRequest` rejects them). -/
def cexStart : Heap × client := NewClient { errCells := [], jars := [] } ":"

/-- The sticky error a request on the ":" base URL produces. -/
def cexMsg : Err := "creating request: parse \":/p\": missing protocol scheme"

/-- A response with no header map and a readable body. -/
def respPlain : Response :=
  { statusCode := 200, header := none, bodyContent := "hello", bodyReadErr := none }

/-- A wrapper (clean error channel, cell 0) around `respPlain`. -/
def wNoHdr : responseWrapper :=
  { resp := some respPlain, body := "hello", errCellId := 0, setterKind := .plain }

/-- A wrapper whose shared error channel (cell 0 of `heapBoom`) is errored. -/
def wPending : responseWrapper :=
  { resp := none, body := "", errCellId := 0, setterKind := .plain }

/-- A header map holding exactly the canonical-cased key "Auth". -/
def hdrsAuth : Headers := [("Auth", ["password"])]

/-- A response carrying the `hdrsAuth` header map. -/
def respAuth : Response :=
  { statusCode := 200, header := some hdrsAuth, bodyContent := "", bodyReadErr := none }

/-- A wrapper (clean error channel, cell 0) around `respAuth`. -/
def wAuth : responseWrapper :=
  { resp := some respAuth, body := "", errCellId := 0, setterKind := .plain }

/-- A decoder that is never reached. -/
def decodeNone : String → Except Err Nat := fun _ => .error "unused decoder"

/-- Stream effect of a wrapper construction, when it did not panic. -/
def constructionEffect (o : Outcome (Heap × responseWrapper × StreamEffect)) :
    Option StreamEffect :=
  match o with
  | .ok x => some x.2.2
  | .panicked _ => none

/-- Well-formedness of a header map built through `Add`: keys are distinct
and no entry has an empty value list. -/
def HeadersWF (hs : Headers) : Prop :=
  (hs.map Prod.fst).Nodup ∧ ∀ p ∈ hs, p.2 ≠ []

theorem cellGet_cellSet_self (h : Heap) (i : Nat) (e : Err)
    (hlt : i < h.errCells.length) : cellGet (cellSet h i e) i = some e := by
  simp [cellGet, cellSet, List.getD, List.getElem?_set_eq_of_lt _ hlt]

theorem headerAdd_of_not_mem (acc : Headers) (k v : String)
    (hk : ∀ p ∈ acc, p.1 ≠ k) : headerAdd acc k v = acc ++ [(k, [v])] := by
  induction acc with
  | nil => rfl
  | cons p rest ih =>
      obtain ⟨k0, vs⟩ := p
      simp only [headerAdd]
      rw [if_neg (hk (k0, vs) (by simp))]
      simp [ih (fun q hq => hk q (by simp [hq]))]

theorem headerAdd_append_self (acc : Headers) (k v : String) (vs : List String)
    (hk : ∀ p ∈ acc, p.1 ≠ k) :
    headerAdd (acc ++ [(k, vs)]) k v = acc ++ [(k, vs ++ [v])] := by
  induction acc with
  | nil => simp [headerAdd]
  | cons p rest ih =>
      obtain ⟨k0, vs0⟩ := p
      simp only [List.cons_append, headerAdd]
      rw [if_neg (hk (k0, vs0) (by simp))]
      simp [ih (fun q hq => hk q (by simp [hq]))]

theorem foldl_headerAdd_append (vs : List String) (acc : Headers) (k : String)
    (ws : List String) (hk : ∀ p ∈ acc, p.1 ≠ k) :
    vs.foldl (fun a v => headerAdd a k v) (acc ++ [(k, ws)]) = acc ++ [(k, ws ++ vs)] := by
  induction vs generalizing ws with
  | nil => simp
  | cons v vr ih =>
      simp only [List.foldl_cons]
      rw [headerAdd_append_self acc k v ws hk, ih (ws ++ [v])]
      simp

theorem foldl_headerAdd_of_not_mem (vs : List String) (acc : Headers) (k : String)
    (hk : ∀ p ∈ acc, p.1 ≠ k) (hvs : vs ≠ []) :
    vs.foldl (fun a v => headerAdd a k v) acc = acc ++ [(k, vs)] := by
  cases vs with
  | nil => cases hvs rfl
  | cons v vr =>
      simp only [List.foldl_cons]
      rw [headerAdd_of_not_mem acc k v hk, foldl_headerAdd_append vr acc k [v] hk]
      simp

theorem foldl_copy_eq (hs : Headers) (acc : Headers)
    (hdisj : ∀ p ∈ hs, ∀ q ∈ acc, q.1 ≠ p.1)
    (hnd : (hs.map Prod.fst).Nodup)
    (hne : ∀ p ∈ hs, p.2 ≠ []) :
    hs.foldl (fun a kv => kv.2.foldl (fun a2 v => headerAdd a2 kv.1 v) a) acc =
      acc ++ hs := by
  induction hs generalizing acc with
  | nil => simp
  | cons p rest ih =>
      obtain ⟨k, vs⟩ := p
      simp only [List.foldl_cons]
      rw [foldl_headerAdd_of_not_mem vs acc k
            (fun q hq => hdisj (k, vs) (by simp) q hq)
            (hne (k, vs) (by simp))]
      have hnd' : (k :: rest.map Prod.fst).Nodup := by
        simpa only [List.map_cons] using hnd
      have hk_rest : ∀ p ∈ rest, k ≠ p.1 := by
        intro p hp
        have hmem : p.1 ∈ rest.map Prod.fst := List.mem_map_of_mem _ hp
        have := (List.nodup_cons.1 hnd').1
        intro hkp
        exact this (hkp ▸ hmem)
      rw [ih (acc ++ [(k, vs)]) ?_ ?_ ?_]
      · simp
      · intro p hp q hq
        rcases List.mem_append.1 hq with h1 | h2
        · exact hdisj p (by simp [hp]) q h1
        · have : q = (k, vs) := by simpa using h2
          subst this
          exact hk_rest p hp
      · exact (List.nodup_cons.1 hnd').2
      · intro p hp
        exact hne p (by simp [hp])

theorem headersCopy_eq (hs : Headers) (hwf : HeadersWF hs) : headersCopy hs = hs := by
  have := foldl_copy_eq hs [] (by simp) hwf.1 hwf.2
  simpa [headersCopy] using this

end Crest
namespace Crest

/-- C1: for every builder holding a sticky error E, every configuration
method (`NoBasicAuth`, `UseBasicAuth`, `UseCookies`, `WithHeader`,
`WithTimeout`), every action method, and `Clone` leave the builder's error
equal to E and return the same builder with all configuration fields (and
the heap, hence the shared `http.Client`) unchanged; action methods return
the no-op wrapper without any I/O. -/
theorem sticky_error_idempotence (h : Heap) (c : client) (E : Err)
    (hE : errGetter h c = some E) :
    ErrorOf h c = some E ∧
    NoBasicAuth h c = (h, c) ∧
    (∀ u p, UseBasicAuth h c u p = (h, c)) ∧
    (∀ b, UseCookies h c b = (h, c)) ∧
    (∀ k v, WithHeader h c k v = (h, c)) ∧
    (∀ t, WithTimeout h c t = (h, c)) ∧
    Clone h c = (h, c) ∧
    (∀ τ p, Delete τ h c p = .ok (h, .nop)) ∧
    (∀ τ p, Get τ h c p = .ok (h, .nop)) ∧
    (∀ τ p b, Patch τ h c p b = .ok (h, .nop)) ∧
    (∀ τ p b, Post τ h c p b = .ok (h, .nop)) ∧
    (∀ τ p b, Put τ h c p b = .ok (h, .nop)) ∧
    (∀ τ p, PatchNoBody τ h c p = .ok (h, .nop)) ∧
    (∀ τ p, PostNoBody τ h c p = .ok (h, .nop)) ∧
    (∀ τ p, PutNoBody τ h c p = .ok (h, .nop)) ∧
    (∀ τ p b, PatchString τ h c p b = .ok (h, .nop)) ∧
    (∀ τ p b, PostString τ h c p b = .ok (h, .nop)) ∧
    (∀ τ p b, PutString τ h c p b = .ok (h, .nop)) ∧
    (∀ τ p b, PatchBytes τ h c p b = .ok (h, .nop)) ∧
    (∀ τ p b, PostBytes τ h c p b = .ok (h, .nop)) ∧
    (∀ τ p b, PutBytes τ h c p b = .ok (h, .nop)) ∧
    (∀ τ p b, PostForm τ h c p b = .ok (h, .nop)) := by
  simp [ErrorOf, NoBasicAuth, UseBasicAuth, UseCookies, WithHeader, WithTimeout, Clone,
    Delete, Get, Patch, Post, Put, PatchNoBody, PostNoBody, PutNoBody, PatchString,
    PostString, PutString, PatchBytes, PostBytes, PutBytes, PostForm,
    doReqNoBody, doReqJSON, doReqString, doReqBytes, doReqForm, hE]

/-- Witness for C1 at a concrete errored builder. -/
theorem sticky_error_idempotence_witness :
    ErrorOf heapBoom clientBoom = some "boom" ∧
    WithHeader heapBoom clientBoom "k" "v" = (heapBoom, clientBoom) ∧
    Clone heapBoom clientBoom = (heapBoom, clientBoom) ∧
    Get τNone heapBoom clientBoom "p" = .ok (heapBoom, .nop) ∧
    PostForm τNone heapBoom clientBoom "p" [] = .ok (heapBoom, .nop) := by
  obtain ⟨e1, _, _, _, e5, _, e7, _, e9, _, _, _, _, _, _, _, _, _, _, _, _, e22⟩ :=
    sticky_error_idempotence heapBoom clientBoom "boom" (by decide)
  exact ⟨e1, e5 "k" "v", e7, e9 τNone "p", e22 τNone "p" []⟩

/-- C2 counterexample: the claim that a clone shares no mutable state with
the original is false.  `Clone` copies the struct, so the clone's
`errGetter`/`errSetter` closures still target the original's error cell:
a failing `Get` on the clone (base URL ":" never parses) turns the
original's `Error()` from `none` into the clone's sticky error. -/
theorem clone_shares_error_cell_counterexample :
    ErrorOf cexStart.1 cexStart.2 = none ∧
    Get τNone cexStart.1 (Clone cexStart.1 cexStart.2).2 "p" =
      .ok ({ errCells := [some cexMsg], jars := [false] },
           .wrapper { resp := none, body := "", errCellId := 0, setterKind := .plain }) ∧
    ErrorOf { errCells := [some cexMsg], jars := [false] } cexStart.2 = some cexMsg :=
  ⟨by decide, by decide, by decide⟩

/-- C2 amended: on an error-free builder, `Clone` returns a builder with a
value-equal (independently rebuilt) header multimap and the same scalar
configuration — but it shares the original's error cell and `http.Client`
(`errCellId` and `httpClientId` are copied), so a failing action on the
clone sets the original's sticky error. -/
theorem clone_amended (h : Heap) (c : client) (τ : Transport) (p : String)
    (hwf : HeadersWF c.headers) (hne : errGetter h c = none)
    (hbad : validRequestURL (buildPath c.baseURL p) = false)
    (hlt : c.errCellId < h.errCells.length) :
    Clone h c = (h, c) ∧
    (Clone h c).2.errCellId = c.errCellId ∧
    (Clone h c).2.httpClientId = c.httpClientId ∧
    Get τ h (Clone h c).2 p =
      .ok (cellSet h c.errCellId
             ("creating request: " ++ urlParseErrMsg (buildPath c.baseURL p)),
           .wrapper { resp := none, body := "", errCellId := c.errCellId,
                      setterKind := .plain }) ∧
    ErrorOf (cellSet h c.errCellId
               ("creating request: " ++ urlParseErrMsg (buildPath c.baseURL p))) c =
      some ("creating request: " ++ urlParseErrMsg (buildPath c.baseURL p)) := by
  have hcopy : headersCopy c.headers = c.headers := headersCopy_eq _ hwf
  have hclone : Clone h c = (h, c) := by
    simp [Clone, hne, hcopy]
  have hset : ∀ m : Err, cellGet (cellSet h c.errCellId m) c.errCellId = some m :=
    fun m => cellGet_cellSet_self h c.errCellId m hlt
  have hne' : cellGet h c.errCellId = none := hne
  refine ⟨hclone, by rw [hclone], by rw [hclone], ?_, ?_⟩
  · rw [hclone]
    simp [Get, doReqNoBody, doReq, errGetter, hne', buildReq, hbad, clientDo,
      newResponseWrapper, wrapOutcome, hset]
  · simpa [ErrorOf, errGetter] using hset _

/-- Witness for the amended C2 at the concrete ":"-based client. -/
theorem clone_amended_witness :
    Clone cexStart.1 cexStart.2 = (cexStart.1, cexStart.2) ∧
    Get τNone cexStart.1 (Clone cexStart.1 cexStart.2).2 "p" =
      .ok (cellSet cexStart.1 0
             ("creating request: " ++ urlParseErrMsg (buildPath ":" "p")),
           .wrapper { resp := none, body := "", errCellId := 0,
                      setterKind := .plain }) := by
  obtain ⟨a1, -, -, a4, -⟩ :=
    clone_amended cexStart.1 cexStart.2 τNone "p"
      ⟨by simp [cexStart, NewClient, NewCustomClient], by simp [cexStart, NewClient, NewCustomClient]⟩
      (by decide) (by decide) (by decide)
  exact ⟨a1, a4⟩

/-- C3: the claim is right and the code is wrong.  On a request-construction
failure `doReqForm` sets the sticky error, but then dereferences the nil
request (`req.Header.Add`) before `do` can short-circuit, so `PostForm`
panics instead of returning an inspector: here on a fresh client with base
URL ":" (unparsable), `PostForm` reaches the nil-pointer dereference. -/
theorem postForm_nil_request_panic :
    ErrorOf cexStart.1 cexStart.2 = none ∧
    PostForm τNone cexStart.1 cexStart.2 "p" [] = .panicked nilDerefMsg :=
  ⟨by decide, by decide⟩

/-- C4 counterexample: `buildPath` does NOT normalize a trailing slash on
the base URL: base "http://x/" with path "/p" yields "http://x//p", two
separators, not the claimed "http://x/p". -/
theorem buildPath_trailing_slash_counterexample :
    buildPath "http://x/" "/p" = "http://x//p" ∧
    buildPath "http://x" "p" = "http://x/p" ∧
    buildPath "http://x" "/p" = "http://x/p" ∧
    "http://x//p" ≠ "http://x/p" := by decide

/-- C4 amended: the target URL is the base, one "/", and the path with one
leading slash removed; so joining is insensitive to a single leading slash
on the path, while a trailing slash on the base is kept and produces a
double separator. -/
theorem buildPath_amended (b p : String) (hp : p.data.head? ≠ some '/') :
    buildPath b p = b ++ "/" ++ p ∧
    buildPath b ("/" ++ p) = b ++ "/" ++ p ∧
    buildPath (b ++ "/") p = b ++ "/" ++ "/" ++ p := by
  have hmk : ∀ s : String, String.mk s.data = s := fun s => by cases s; rfl
  have htrim : trimPrefixSlash p = p := by
    cases hd : p.data with
    | nil => simp [trimPrefixSlash, hd]
    | cons c rest =>
        simp only [hd, List.head?_cons, ne_eq, Option.some.injEq] at hp
        simp [trimPrefixSlash, hd, hp]
  have hdd : ("/" ++ p).data = '/' :: p.data := by simp [String.data_append]
  have htr2 : trimPrefixSlash ("/" ++ p) = p := by
    simp [trimPrefixSlash, hdd, hmk]
  refine ⟨?_, ?_, ?_⟩ <;> simp [buildPath, htrim, htr2]

/-- Witness for the amended C4 at concrete base and path. -/
theorem buildPath_amended_witness :
    buildPath "http://x" "p" = "http://x" ++ "/" ++ "p" ∧
    buildPath "http://x" ("/" ++ "p") = "http://x" ++ "/" ++ "p" ∧
    buildPath ("http://x" ++ "/") "p" = "http://x" ++ "/" ++ "/" ++ "p" :=
  buildPath_amended "http://x" "p" (by decide)

end Crest
namespace Crest

/-- C5: on a wrapper with a clean error channel whose response carries no
header map at all, the positive header assertions (`ExpectHeaderPresent`,
`ExpectHeaderContains`, `ExpectHeaderEquals`) set a "no headers" error,
while the negative ones (`ExpectHeaderNotPresent`,
`ExpectHeaderNotContains`, `ExpectHeaderNotEquals`) leave the error nil
and succeed. -/
theorem header_nil_asymmetry (h : Heap) (r : responseWrapper) (resp : Response)
    (key value : String)
    (hne : wErr h r = none) (hresp : r.resp = some resp) (hhdr : resp.header = none)
    (hlt : r.errCellId < h.errCells.length) :
    ExpectHeaderPresent h r key =
      .ok (wSetErr h r ("expected a header " ++ goQuote key ++
             ", but there are no headers"), r) ∧
    wErr (wSetErr h r ("expected a header " ++ goQuote key ++
           ", but there are no headers")) r =
      some (applySetter r.setterKind ("expected a header " ++ goQuote key ++
             ", but there are no headers")) ∧
    ExpectHeaderContains h r key value =
      .ok (wSetErr h r ("expected a header " ++ goQuote key ++ " containing " ++
             goQuote value ++ ", but there are no headers"), r) ∧
    ExpectHeaderEquals h r key value =
      .ok (wSetErr h r ("expected a header " ++ goQuote key ++ " containing " ++
             goQuote value ++ ", but there are no headers"), r) ∧
    ExpectHeaderNotPresent h r key = .ok (h, r) ∧
    ExpectHeaderNotContains h r key value = .ok (h, r) ∧
    ExpectHeaderNotEquals h r key value = .ok (h, r) := by
  have hne' : cellGet h r.errCellId = none := hne
  have hset : ∀ m : Err, cellGet (cellSet h r.errCellId m) r.errCellId = some m :=
    fun m => cellGet_cellSet_self h r.errCellId m hlt
  refine ⟨?_, ?_, ?_, ?_, ?_, ?_, ?_⟩ <;>
    simp [ExpectHeaderPresent, ExpectHeaderContains, ExpectHeaderEquals,
      ExpectHeaderNotPresent, ExpectHeaderNotContains, ExpectHeaderNotEquals,
      wErr, wSetErr, hne', hresp, hhdr, headerLookup, hset]

/-- Witness for C5 on a concrete response with a nil header map. -/
theorem header_nil_asymmetry_witness :
    ExpectHeaderPresent heapNoErr wNoHdr "X" =
      .ok (wSetErr heapNoErr wNoHdr ("expected a header " ++ goQuote "X" ++
             ", but there are no headers"), wNoHdr) ∧
    ExpectHeaderNotPresent heapNoErr wNoHdr "X" = .ok (heapNoErr, wNoHdr) := by
  obtain ⟨a1, -, -, -, a5, -, -⟩ :=
    header_nil_asymmetry heapNoErr wNoHdr respPlain "X" "v"
      (by decide) (by decide) (by decide) (by decide)
  exact ⟨a1, a5⟩

/-- C6: wrapper construction with a pre-existing error performs no body
read and leaves the body empty; otherwise it reads the whole body exactly
once — on success the body is the stream's content, on a read failure the
setter records the error wrapped with "reading response body" and the body
stays empty.  `Body()` returns the materialized string (empty when no read
occurred). -/
theorem wrapper_construction_body (h : Heap) (resp? : Option Response) (cell : Nat)
    (kind : SetterKind) (hlt : cell < h.errCells.length) :
    (∀ E, cellGet h cell = some E →
      newResponseWrapper h resp? cell kind =
        .ok (h, { resp := resp?, body := "", errCellId := cell, setterKind := kind },
             { reads := 0, drained := false, closed := false }) ∧
      Body { resp := resp?, body := "", errCellId := cell, setterKind := kind } = "") ∧
    (∀ rsp, cellGet h cell = none → resp? = some rsp → rsp.bodyReadErr = none →
      newResponseWrapper h resp? cell kind =
        .ok (h, { resp := resp?, body := rsp.bodyContent, errCellId := cell,
                  setterKind := kind },
             { reads := 1, drained := true, closed := false }) ∧
      Body { resp := resp?, body := rsp.bodyContent, errCellId := cell,
             setterKind := kind } = rsp.bodyContent) ∧
    (∀ rsp e, cellGet h cell = none → resp? = some rsp → rsp.bodyReadErr = some e →
      newResponseWrapper h resp? cell kind =
        .ok (cellSet h cell (applySetter kind ("reading response body: " ++ e)),
             { resp := resp?, body := "", errCellId := cell, setterKind := kind },
             { reads := 1, drained := false, closed := false }) ∧
      cellGet (cellSet h cell (applySetter kind ("reading response body: " ++ e))) cell =
        some (applySetter kind ("reading response body: " ++ e)) ∧
      Body { resp := resp?, body := "", errCellId := cell, setterKind := kind } = "") := by
  refine ⟨?_, ?_, ?_⟩
  · intro E hE
    exact ⟨by simp [newResponseWrapper, hE], rfl⟩
  · intro rsp hnone hr hre
    subst hr
    exact ⟨by simp [newResponseWrapper, hnone, hre], rfl⟩
  · intro rsp e hnone hr hre
    subst hr
    exact ⟨by simp [newResponseWrapper, hnone, hre],
           cellGet_cellSet_self h cell _ hlt, rfl⟩

/-- Witness for C6 on the successful-read path. -/
theorem wrapper_construction_body_witness :
    newResponseWrapper heapNoErr (some respPlain) 0 .plain =
      .ok (heapNoErr, { resp := some respPlain, body := "hello", errCellId := 0,
                        setterKind := .plain },
           { reads := 1, drained := true, closed := false }) := by
  exact ((wrapper_construction_body heapNoErr (some respPlain) 0 .plain
    (by decide)).2.1 respPlain (by decide) rfl (by decide)).1

/-- C7 counterexample: the stream is NOT released on every exit path — the
source never calls `Close`, and the pre-existing-error path performs no
read at all: on the successful path the effect is one full read with
`closed = false`, and under a pre-existing error there are zero reads. -/
theorem stream_not_closed_counterexample :
    constructionEffect (newResponseWrapper heapNoErr (some respPlain) 0 .plain) =
      some { reads := 1, drained := true, closed := false } ∧
    constructionEffect (newResponseWrapper heapBoom (some respPlain) 0 .plain) =
      some { reads := 0, drained := false, closed := false } := by decide

/-- C7 amended: construction fully drains the stream exactly on the
no-pending-error, successful-read path; it never closes the stream on any
exit path, and under a pre-existing error it does not read at all. -/
theorem stream_drain_amended (h : Heap) (resp? : Option Response) (cell : Nat)
    (kind : SetterKind) :
    (∀ E, cellGet h cell = some E →
      constructionEffect (newResponseWrapper h resp? cell kind) =
        some { reads := 0, drained := false, closed := false }) ∧
    (∀ rsp, cellGet h cell = none → resp? = some rsp → rsp.bodyReadErr = none →
      constructionEffect (newResponseWrapper h resp? cell kind) =
        some { reads := 1, drained := true, closed := false }) ∧
    (∀ rsp e, cellGet h cell = none → resp? = some rsp → rsp.bodyReadErr = some e →
      constructionEffect (newResponseWrapper h resp? cell kind) =
        some { reads := 1, drained := false, closed := false }) ∧
    (∀ eff, constructionEffect (newResponseWrapper h resp? cell kind) = some eff →
      eff.closed = false) := by
  refine ⟨?_, ?_, ?_, ?_⟩
  · intro E hE
    simp [newResponseWrapper, constructionEffect, hE]
  · intro rsp hnone hr hre
    subst hr
    simp [newResponseWrapper, constructionEffect, hnone, hre]
  · intro rsp e hnone hr hre
    subst hr
    simp [newResponseWrapper, constructionEffect, hnone, hre]
  · intro eff heff
    cases hcell : cellGet h cell with
    | some E =>
        simp [newResponseWrapper, constructionEffect, hcell] at heff
        subst heff
        rfl
    | none =>
        cases resp? with
        | none => simp [newResponseWrapper, constructionEffect, hcell] at heff
        | some rsp =>
            cases hre : rsp.bodyReadErr with
            | some e =>
                simp [newResponseWrapper, constructionEffect, hcell, hre] at heff
                subst heff
                rfl
            | none =>
                simp [newResponseWrapper, constructionEffect, hcell, hre] at heff
                subst heff
                rfl

/-- Witness for the amended C7 on the successful-read path. -/
theorem stream_drain_amended_witness :
    constructionEffect (newResponseWrapper heapNoErr (some respPlain) 0
      SetterKind.plain) = some { reads := 1, drained := true, closed := false } :=
  (stream_drain_amended heapNoErr (some respPlain) 0 .plain).2.1 respPlain
    (by decide) rfl (by decide)

/-- C8: once the shared error channel reports an error, every assertion
method of the wrapper is a pure no-op: it returns the same wrapper with
the heap (hence the error) unchanged, for every argument — in particular
no predicate is evaluated and `ParseBody` leaves the destination
untouched (the decoder is never invoked). -/
theorem pending_error_noop (α : Type) (h : Heap) (r : responseWrapper) (E : Err)
    (hE : wErr h r = some E) :
    (∀ s, ExpectBodyContains h r s = .ok (h, r)) ∧
    (∀ s, ExpectBodyEquals h r s = .ok (h, r)) ∧
    (∀ s, ExpectBodyNotContains h r s = .ok (h, r)) ∧
    (∀ s, ExpectBodyNotEquals h r s = .ok (h, r)) ∧
    (∀ f, ExpectBodyPasses h r f = .ok (h, r)) ∧
    (∀ k v, ExpectHeaderContains h r k v = .ok (h, r)) ∧
    (∀ k v, ExpectHeaderEquals h r k v = .ok (h, r)) ∧
    (∀ k v, ExpectHeaderNotContains h r k v = .ok (h, r)) ∧
    (∀ k v, ExpectHeaderNotEquals h r k v = .ok (h, r)) ∧
    (∀ k, ExpectHeaderNotPresent h r k = .ok (h, r)) ∧
    (∀ k, ExpectHeaderPresent h r k = .ok (h, r)) ∧
    (∀ f, ExpectPasses h r f = .ok (h, r)) ∧
    (∀ code, ExpectStatus h r code = .ok (h, r)) ∧
    (∀ (dest : α) decode, ParseBody h r dest decode = .ok (h, r, dest)) ∧
    wErr h r = some E := by
  simp [ExpectBodyContains, ExpectBodyEquals, ExpectBodyNotContains,
    ExpectBodyNotEquals, ExpectBodyPasses, ExpectHeaderContains, ExpectHeaderEquals,
    ExpectHeaderNotContains, ExpectHeaderNotEquals, ExpectHeaderNotPresent,
    ExpectHeaderPresent, ExpectPasses, ExpectStatus, ParseBody, hE]

/-- Witness for C8 on a concrete errored channel. -/
theorem pending_error_noop_witness :
    ExpectStatus heapBoom wPending 200 = .ok (heapBoom, wPending) ∧
    ExpectBodyContains heapBoom wPending "x" = .ok (heapBoom, wPending) ∧
    ParseBody heapBoom wPending (7 : Nat) decodeNone = .ok (heapBoom, wPending, 7) := by
  obtain ⟨a1, -, -, -, -, -, -, -, -, -, -, -, a13, a14, -⟩ :=
    pending_error_noop Nat heapBoom wPending "boom" (by decide)
  exact ⟨a13 200, a1 "x", a14 7 decodeNone⟩

/-- C9: every method of the Null Inspector ignores its arguments and
returns the identical Null Inspector (a fixed point of all chaining
methods, with no state to affect), and `Body` always returns "". -/
theorem nop_absorption (α : Type) (n : nopResponseWrapper) (s v k : String)
    (f : String → Bool) (g : Option Response → String → Bool) (code : Int)
    (dest : α) :
    n.Body = "" ∧ n.ExpectBodyContains s = n ∧ n.ExpectBodyEquals s = n ∧
    n.ExpectBodyNotContains s = n ∧ n.ExpectBodyNotEquals s = n ∧
    n.ExpectBodyPasses f = n ∧ n.ExpectHeaderContains k v = n ∧
    n.ExpectHeaderEquals k v = n ∧ n.ExpectHeaderNotContains k v = n ∧
    n.ExpectHeaderNotEquals k v = n ∧ n.ExpectHeaderNotPresent k = n ∧
    n.ExpectHeaderPresent k = n ∧ n.ExpectPasses g = n ∧
    n.ExpectStatus code = n ∧ n.ParseBody dest = n :=
  ⟨rfl, rfl, rfl, rfl, rfl, rfl, rfl, rfl, rfl, rfl, rfl, rfl, rfl, rfl, rfl⟩

/-- C10: on a wrapper with a clean error channel and a non-nil header map,
`ExpectHeaderPresent key` succeeds (returns the unchanged heap and
wrapper) if and only if the verbatim key maps to a non-empty value list —
the lookup is an exact, case-sensitive Go map index with no
canonicalization. -/
theorem headerPresent_exact_match (h : Heap) (r : responseWrapper) (resp : Response)
    (hs : Headers) (key : String)
    (hne : wErr h r = none) (hresp : r.resp = some resp) (hhdr : resp.header = some hs)
    (hlt : r.errCellId < h.errCells.length) :
    ExpectHeaderPresent h r key = .ok (h, r) ↔ headerLookup (some hs) key ≠ [] := by
  have hne' : cellGet h r.errCellId = none := hne
  constructor
  · intro hok hempty
    have hres : ExpectHeaderPresent h r key =
        .ok (wSetErr h r ("expected a header " ++ goQuote key ++
               " to be present, but it was not"), r) := by
      simp [ExpectHeaderPresent, wErr, hne', hresp, hhdr, hempty]
    rw [hres] at hok
    injection hok with hpair
    have hheq : wSetErr h r ("expected a header " ++ goQuote key ++
        " to be present, but it was not") = h := congrArg Prod.fst hpair
    have hcell : cellGet (wSetErr h r ("expected a header " ++ goQuote key ++
        " to be present, but it was not")) r.errCellId =
        some (applySetter r.setterKind ("expected a header " ++ goQuote key ++
          " to be present, but it was not")) :=
      cellGet_cellSet_self h r.errCellId _ hlt
    rw [hheq, hne'] at hcell
    exact Option.noConfusion hcell
  · intro hnonempty
    have hlen : (headerLookup (some hs) key).length ≠ 0 := by
      simpa [List.length_eq_zero] using hnonempty
    simp [ExpectHeaderPresent, wErr, hne', hresp, hhdr, hlen]

/-- Witness for C10: the stored (canonicalized) key "Auth" is found, while
the lowercase "auth" — differing only in case — is treated as absent. -/
theorem headerPresent_exact_match_witness :
    headerLookup (some hdrsAuth) "auth" = [] ∧
    headerLookup (some hdrsAuth) "Auth" = ["password"] ∧
    ExpectHeaderPresent heapNoErr wAuth "Auth" = .ok (heapNoErr, wAuth) ∧
    ExpectHeaderPresent heapNoErr wAuth "auth" ≠ .ok (heapNoErr, wAuth) := by
  refine ⟨by decide, by decide, ?_, ?_⟩
  · exact (headerPresent_exact_match heapNoErr wAuth respAuth hdrsAuth "Auth"
      (by decide) (by decide) (by decide) (by decide)).mpr (by decide)
  · intro hcon
    exact (headerPresent_exact_match heapNoErr wAuth respAuth hdrsAuth "auth"
      (by decide) (by decide) (by decide) (by decide)).mp hcon (by decide)

end Crest
